import Mathlib

/-!
# Orbitry core: shallow embedding and verification

This file embeds the core of the Orbitry editor (project data model,
validation, asset-normalization pipeline, import loop, and export bundler)
from `src/src/App.tsx`, `src/src/lib/exportViewer.ts` and the bundled
`src/lib/project.ts` / `src/lib/assets.ts` sources, and proves or refutes
the specification's claims about it.

Conventions:
* JavaScript numbers are modelled as rationals (`ℚ`); `Math.round` is
  modelled exactly (round half towards `+∞`).
* JSON documents are modelled by the inductive `JsValue`;
  `JSON.parse ∘ JSON.stringify` is modelled as the identity on `JsValue`
  (the text layer is the JS engine's, not this repository's).
* Asynchronous effects (decode, encode, canvas availability, IndexedDB
  persistence) are modelled by explicit outcome parameters, and resource
  handling (bitmap close, object-URL revocation) by an explicit record of
  what was released on each control path.
-/

namespace Orbitry

/-! ## JavaScript-style rounding

`Math.round(x)` for non-negative `x` is `⌊x + 1/2⌋`. All rounded
quantities in the pipeline are non-negative, so we return a natural. -/

def jsRound (q : ℚ) : ℕ := (⌊q + 1/2⌋).toNat

/-- Decidable equality on `Except`, for evaluating concrete runs. -/
def exceptDecEq {ε α : Type} [DecidableEq ε] [DecidableEq α] :
    (a b : Except ε α) → Decidable (a = b)
  | .error e, .error f =>
      if h : e = f then .isTrue (by rw [h]) else .isFalse (by simpa using h)
  | .error _, .ok _ => .isFalse (by simp)
  | .ok _, .error _ => .isFalse (by simp)
  | .ok a, .ok b =>
      if h : a = b then .isTrue (by rw [h]) else .isFalse (by simpa using h)

instance {ε α : Type} [DecidableEq ε] [DecidableEq α] : DecidableEq (Except ε α) :=
  exceptDecEq

/-! ## JSON values

Model of the runtime values that `JSON.parse` can produce, plus
`undefined` (the result of reading an absent property). -/

inductive JsValue where
  | undef : JsValue
  | nul : JsValue
  | bool (b : Bool) : JsValue
  | num (q : ℚ) : JsValue
  | str (s : String) : JsValue
  | arr (elems : List JsValue) : JsValue
  | obj (fields : List (String × JsValue)) : JsValue

/-- JS truthiness: `undefined`, `null`, `false`, `0` and `""` are falsy. -/
def JsValue.truthy : JsValue → Bool
  | .undef => false
  | .nul => false
  | .bool b => b
  | .num q => q ≠ 0
  | .str s => s ≠ ""
  | .arr _ => true
  | .obj _ => true

/-- `typeof v === 'object'` (true for `null`, arrays and plain objects). -/
def JsValue.typeofObject : JsValue → Bool
  | .nul => true
  | .arr _ => true
  | .obj _ => true
  | _ => false

/-- Property read `v.name`: first binding in an object's field list,
`undefined` when absent or when `v` is not a plain object. -/
def JsValue.getField : JsValue → String → JsValue
  | .obj fields, name =>
      match fields.find? (fun f => f.1 == name) with
      | some f => f.2
      | none => .undef
  | _, _ => .undef

def JsValue.isStr : JsValue → Bool
  | .str _ => true
  | _ => false

def JsValue.isArr : JsValue → Bool
  | .arr _ => true
  | _ => false

/-- Strict comparison `v === 1` of a runtime value against the number `1`. -/
def JsValue.isNumOne : JsValue → Bool
  | .num q => q == 1
  | _ => false

/-! ## Project data model (`src/lib/project.ts`) -/

/-- `OrbitryViewParameters`. -/
structure ViewParams where
  yaw : ℚ
  pitch : ℚ
  fov : ℚ
deriving DecidableEq

/-- `OrbitryScenePanorama` (`type` is always the literal `"equirect"`). -/
structure Panorama where
  label : Option String
  fileName : Option String
  width : Option ℚ
  height : Option ℚ
deriving DecidableEq

/-- `OrbitryHotspot = OrbitryInfoHotspot | OrbitryLinkHotspot`, a tagged
union discriminated by `type`. -/
inductive Hotspot where
  | info (id : String) (yaw pitch : ℚ) (title text : Option String)
  | link (id : String) (yaw pitch : ℚ) (targetSceneId : String) (rotation : Option ℚ)
deriving DecidableEq

/-- The `id` field shared by both hotspot variants. -/
def Hotspot.id : Hotspot → String
  | .info i _ _ _ _ => i
  | .link i _ _ _ _ => i

/-- `OrbitryScene`. -/
structure Scene where
  id : String
  name : String
  panorama : Panorama
  initialView : ViewParams
  hotspots : List Hotspot
deriving DecidableEq

/-- `OrbitryProject`. The TS type fixes `version` to the literal `1`; we
keep it as a number (ℚ, like every JS number here) so that
`createEmptyProject`'s choice of `1` is a fact about the code, not the
model. -/
structure Project where
  version : ℚ
  createdAt : String
  updatedAt : String
  title : String
  scenes : List Scene
deriving DecidableEq

/-- `createEmptyProject(title)`; `now` stands for `new Date().toISOString()`. -/
def createEmptyProject (title : String) (now : String) : Project :=
  { version := 1, createdAt := now, updatedAt := now, title := title, scenes := [] }

/-- `touchProject(p)`: copy with `updatedAt` rewritten to now. -/
def touchProject (p : Project) (now : String) : Project :=
  { p with updatedAt := now }

/-- `uid(prefix)`: `` `${prefix}_${random hex}_${timestamp hex}` ``. The
random and time components are environment inputs, so the generator is
modelled as the pure assembly of the three parts. -/
def uid (pre : String) (randomHex timeHex : String) : String :=
  pre ++ "_" ++ randomHex ++ "_" ++ timeHex

/-! ## Validation (`assertIsProject`, `src/lib/project.ts`) -/

/-- The four distinct failures thrown by `assertIsProject`, in source
order. `unsupportedVersion` is the thrown `'Unsupported project version'`. -/
inductive ProjectError where
  | notObject
  | unsupportedVersion
  | titleNotString
  | scenesNotArray
deriving DecidableEq

/-- `assertIsProject(data)`:
```
if (!data || typeof data !== 'object') throw ...
if (data.version !== 1) throw ...
if (typeof data.title !== 'string') throw ...
if (!Array.isArray(data.scenes)) throw ...
``` -/
def assertIsProject (data : JsValue) : Except ProjectError Unit :=
  if !data.truthy || !data.typeofObject then .error .notObject
  else if !(data.getField "version").isNumOne then .error .unsupportedVersion
  else if !(data.getField "title").isStr then .error .titleNotString
  else if !(data.getField "scenes").isArr then .error .scenesNotArray
  else .ok ()

/-! ## JSON serialization of a project

`saveProject` runs `JSON.stringify(project, null, 2)`;
`loadProject` runs `JSON.parse` and then `assertIsProject` and installs
the parsed value as the new project document, unchanged. The text layer
(`stringify`/`parse`) belongs to the JS engine and round-trips the value
tree; we model the serialized form by the `JsValue` tree itself.
`JSON.stringify` emits object properties in insertion order and omits
`undefined`-valued (absent optional) properties. -/

def encodeOptStr (name : String) : Option String → List (String × JsValue)
  | none => []
  | some s => [(name, .str s)]

def encodeOptNum (name : String) : Option ℚ → List (String × JsValue)
  | none => []
  | some q => [(name, .num q)]

def panoramaToJson (p : Panorama) : JsValue :=
  .obj ([("type", .str "equirect")]
    ++ encodeOptStr "label" p.label
    ++ encodeOptStr "fileName" p.fileName
    ++ encodeOptNum "width" p.width
    ++ encodeOptNum "height" p.height)

def viewToJson (v : ViewParams) : JsValue :=
  .obj [("yaw", .num v.yaw), ("pitch", .num v.pitch), ("fov", .num v.fov)]

def hotspotToJson : Hotspot → JsValue
  | .info i y pt t x =>
      .obj ([("id", .str i), ("type", .str "info"), ("yaw", .num y), ("pitch", .num pt)]
        ++ encodeOptStr "title" t ++ encodeOptStr "text" x)
  | .link i y pt tgt r =>
      .obj ([("id", .str i), ("type", .str "link"), ("yaw", .num y), ("pitch", .num pt),
             ("targetSceneId", .str tgt)]
        ++ encodeOptNum "rotation" r)

def sceneToJson (s : Scene) : JsValue :=
  .obj [("id", .str s.id), ("name", .str s.name),
        ("panorama", panoramaToJson s.panorama),
        ("initialView", viewToJson s.initialView),
        ("hotspots", .arr (s.hotspots.map hotspotToJson))]

def projectToJson (p : Project) : JsValue :=
  .obj [("version", .num p.version), ("createdAt", .str p.createdAt),
        ("updatedAt", .str p.updatedAt), ("title", .str p.title),
        ("scenes", .arr (p.scenes.map sceneToJson))]

/-- `saveProject`: the serialized document (modulo the JS text layer). -/
def saveProject (p : Project) : JsValue := projectToJson p

/-- `loadProject`: parse, validate with `assertIsProject`, and adopt the
parsed document unchanged (`setProject(data)`). -/
def loadProject (doc : JsValue) : Except ProjectError JsValue :=
  match assertIsProject doc with
  | .error e => .error e
  | .ok _ => .ok doc

/-! ### A reference decoder

The code never decodes (it uses the parsed JSON object directly); this
decoder exists only to state that serialization loses nothing: it is a
left inverse of `projectToJson`, hence "structurally equal documents"
means "equal projects". -/

def decodeOptStrField (v : JsValue) (name : String) : Option (Option String) :=
  match v.getField name with
  | .undef => some none
  | .str s => some (some s)
  | _ => none

def decodeOptNumField (v : JsValue) (name : String) : Option (Option ℚ) :=
  match v.getField name with
  | .undef => some none
  | .num q => some (some q)
  | _ => none

def decodeStrField (v : JsValue) (name : String) : Option String :=
  match v.getField name with
  | .str s => some s
  | _ => none

def decodeNumField (v : JsValue) (name : String) : Option ℚ :=
  match v.getField name with
  | .num q => some q
  | _ => none

def decodeList (f : JsValue → Option α) : List JsValue → Option (List α)
  | [] => some []
  | v :: rest => do
      let a ← f v
      let tail ← decodeList f rest
      some (a :: tail)

def decodePanorama (v : JsValue) : Option Panorama :=
  match v.getField "type" with
  | .str "equirect" => do
      let label ← decodeOptStrField v "label"
      let fileName ← decodeOptStrField v "fileName"
      let width ← decodeOptNumField v "width"
      let height ← decodeOptNumField v "height"
      some { label, fileName, width, height }
  | _ => none

def decodeView (v : JsValue) : Option ViewParams := do
  let yaw ← decodeNumField v "yaw"
  let pitch ← decodeNumField v "pitch"
  let fov ← decodeNumField v "fov"
  some { yaw, pitch, fov }

def decodeHotspot (v : JsValue) : Option Hotspot :=
  match v.getField "type" with
  | .str "info" => do
      let i ← decodeStrField v "id"
      let yaw ← decodeNumField v "yaw"
      let pitch ← decodeNumField v "pitch"
      let title ← decodeOptStrField v "title"
      let text ← decodeOptStrField v "text"
      some (.info i yaw pitch title text)
  | .str "link" => do
      let i ← decodeStrField v "id"
      let yaw ← decodeNumField v "yaw"
      let pitch ← decodeNumField v "pitch"
      let tgt ← decodeStrField v "targetSceneId"
      let rotation ← decodeOptNumField v "rotation"
      some (.link i yaw pitch tgt rotation)
  | _ => none

def decodeScene (v : JsValue) : Option Scene := do
  let i ← decodeStrField v "id"
  let name ← decodeStrField v "name"
  let panorama ← decodePanorama (v.getField "panorama")
  let initialView ← decodeView (v.getField "initialView")
  let hotspots ← match v.getField "hotspots" with
    | .arr elems => decodeList decodeHotspot elems
    | _ => none
  some { id := i, name, panorama, initialView, hotspots }

def decodeProject (v : JsValue) : Option Project := do
  let version ← decodeNumField v "version"
  let createdAt ← decodeStrField v "createdAt"
  let updatedAt ← decodeStrField v "updatedAt"
  let title ← decodeStrField v "title"
  let scenes ← match v.getField "scenes" with
    | .arr elems => decodeList decodeScene elems
    | _ => none
  some { version, createdAt, updatedAt, title, scenes }

theorem decodePanorama_toJson (p : Panorama) :
    decodePanorama (panoramaToJson p) = some p := by
  obtain ⟨l, f, w, h⟩ := p
  cases l <;> cases f <;> cases w <;> cases h <;> rfl

theorem decodeView_toJson (v : ViewParams) :
    decodeView (viewToJson v) = some v := rfl

theorem decodeHotspot_toJson (h : Hotspot) :
    decodeHotspot (hotspotToJson h) = some h := by
  cases h with
  | info i y pt t x => cases t <;> cases x <;> rfl
  | link i y pt tgt r => cases r <;> rfl

theorem decodeScene_toJson (s : Scene) :
    decodeScene (sceneToJson s) = some s := by
  obtain ⟨i, n, pano, iv, hs⟩ := s
  have hmap : decodeList decodeHotspot (hs.map hotspotToJson) = some hs := by
    induction hs with
    | nil => rfl
    | cons h rest ih =>
        simp [decodeList, decodeHotspot_toJson, ih]
  simp [decodeScene, sceneToJson, decodeStrField, JsValue.getField,
    decodePanorama_toJson, decodeView_toJson, hmap]

theorem decodeProject_toJson (p : Project) :
    decodeProject (projectToJson p) = some p := by
  obtain ⟨v, c, u, t, ss⟩ := p
  have hmap : decodeList decodeScene (ss.map sceneToJson) = some ss := by
    induction ss with
    | nil => rfl
    | cons s rest ih =>
        simp [decodeList, decodeScene_toJson, ih]
  simp [decodeProject, projectToJson, decodeStrField, decodeNumField,
    JsValue.getField, hmap]

/-! ## Asset pipeline (`src/lib/assets.ts`)

`processEquirectToSafeBlob` decodes the uploaded file to a bitmap,
computes `scale = Math.min(1, safeMax / Math.max(w, h))`, passes the
original bytes through when `scale === 1`, otherwise re-encodes via a
canvas. Decode/canvas/encode are host effects, modelled by an explicit
`PipelineEnv`; what the run acquired and released is recorded in
`Resources`. -/

/-- A binary payload: either the original file bytes (bit-exact) or a
canvas re-encoding at the given dimensions, MIME type and quality. -/
inductive Payload where
  | original (bytes : List ℕ)
  | encoded (width height : ℕ) (mime : String) (quality : ℚ)
deriving DecidableEq

structure ImageFile where
  name : String
  bytes : List ℕ
deriving DecidableEq

/-- Outcome of `decodeImageToBitmap`: the fast path
`createImageBitmap(file)` succeeded, the object-URL `HTMLImageElement`
fallback succeeded (an object URL was created), or both failed (the
fallback had already created its object URL when it rejected). -/
inductive DecodeOutcome where
  | fastOk (width height : ℕ)
  | fallbackOk (width height : ℕ)
  | failed
deriving DecidableEq

/-- Host behaviour during one normalization run. -/
structure PipelineEnv where
  decode : DecodeOutcome
  /-- `canvas.getContext('2d', { alpha: false })` returns non-null. -/
  ctxAvailable : Bool
  /-- `canvas.toBlob` delivers a blob (encode succeeds). -/
  encodeOk : Bool
deriving DecidableEq

/-- The three rejection reasons of `processEquirectToSafeBlob`, in
source order: `'Failed to decode image'`, `'Canvas 2D context not
available'`, `'Failed to encode image'`. -/
inductive NormError where
  | decodeError
  | ctxUnavailable
  | encodeError
deriving DecidableEq

/-- The resolved value `{ blob, width, height, originalWidth,
originalHeight, fileName }`. -/
structure NormResult where
  blob : Payload
  width : ℕ
  height : ℕ
  originalWidth : ℕ
  originalHeight : ℕ
  fileName : String
deriving DecidableEq

/-- What one run acquired and released. -/
structure Resources where
  urlCreated : Bool
  urlRevoked : Bool
  bitmapCreated : Bool
  bitmapClosed : Bool
deriving DecidableEq

/-- `Math.min(1, safeMax / Math.max(ow, oh))`. When `max = 0` the JS
division yields `Infinity` (for the positive `safeMax` the callers pass)
and the min is `1`, hence the explicit branch. -/
def computeScale (safeMax ow oh : ℕ) : ℚ :=
  if max ow oh = 0 then 1 else min 1 ((safeMax : ℚ) / (max ow oh : ℚ))

/-- The body of `processEquirectToSafeBlob` after a successful decode.
The source releases the bitmap (`bitmap.close()`) and revokes the
fallback object URL only *after* the `if/else` producing `blob`; a throw
from the else-branch (`ctx` null, `toBlob` failure) skips both. -/
def processDecoded (file : ImageFile) (safeMax : ℕ) (mime : String) (quality : ℚ)
    (env : PipelineEnv) (ow oh : ℕ) (usedFallback : Bool) :
    Except NormError NormResult × Resources :=
  let scale := computeScale safeMax ow oh
  let width := jsRound ((ow : ℚ) * scale)
  let height := jsRound ((oh : ℚ) * scale)
  if scale = 1 then
    (.ok { blob := .original file.bytes, width, height,
           originalWidth := ow, originalHeight := oh, fileName := file.name },
     { urlCreated := usedFallback, urlRevoked := usedFallback,
       bitmapCreated := true, bitmapClosed := true })
  else if !env.ctxAvailable then
    (.error .ctxUnavailable,
     { urlCreated := usedFallback, urlRevoked := false,
       bitmapCreated := true, bitmapClosed := false })
  else if !env.encodeOk then
    (.error .encodeError,
     { urlCreated := usedFallback, urlRevoked := false,
       bitmapCreated := true, bitmapClosed := false })
  else
    (.ok { blob := .encoded width height mime quality, width, height,
           originalWidth := ow, originalHeight := oh, fileName := file.name },
     { urlCreated := usedFallback, urlRevoked := usedFallback,
       bitmapCreated := true, bitmapClosed := true })

/-- `processEquirectToSafeBlob(file, opts)`. On the double decode
failure the fallback rejected after creating its object URL and before
any `revokeObjectURL`. -/
def processEquirectToSafeBlob (file : ImageFile) (safeMax : ℕ) (mime : String)
    (quality : ℚ) (env : PipelineEnv) : Except NormError NormResult × Resources :=
  match env.decode with
  | .failed =>
      (.error .decodeError,
       { urlCreated := true, urlRevoked := false,
         bitmapCreated := false, bitmapClosed := false })
  | .fastOk ow oh => processDecoded file safeMax mime quality env ow oh false
  | .fallbackOk ow oh => processDecoded file safeMax mime quality env ow oh true

/-! ## Batch import (`handleImportFiles`, `src/App.tsx`)

The loop normalizes files strictly in order; each success is persisted
(`saveAssetToIdb`) and its scene collected into the local `newScenes`.
There is no `try`/`catch` inside the loop: a rejection from
`processEquirectToSafeBlob` rejects the whole call, and the single
`setProject` after the loop never runs. -/

/-- `StoredAsset` (`src/lib/assets.ts`). -/
structure StoredAsset where
  sceneId : String
  fileName : String
  blob : Payload
  width : ℕ
  height : ℕ
  originalWidth : ℕ
  originalHeight : ℕ
  updatedAt : String
deriving DecidableEq

/-- `file.name.replace(/\.[^/.]+$/, '')`: drop one trailing
`.extension` whose extension is nonempty and free of `.` and `/`. -/
def stripExt (name : List Char) : List Char :=
  let rev := name.reverse
  let ext := rev.takeWhile (fun c => c != '.' && c != '/')
  match rev.drop ext.length with
  | '.' :: more => if ext.isEmpty then name else more.reverse
  | _ => name

/-- The scene record built for one imported file; `soFar` is
`newScenes.length` at that point (the name fallback numbers scenes from
the render-time `project.scenes.length`). -/
def importScene (p : Project) (soFar : ℕ) (id : String) (f : ImageFile)
    (r : NormResult) : Scene :=
  let baseName := String.mk (stripExt f.name.toList)
  { id := id,
    name := if baseName = "" then "Scene " ++ toString (p.scenes.length + soFar + 1)
            else baseName,
    panorama :=
      { label := some (if r.originalWidth ≠ r.width then
            "Imported (scaled to " ++ toString r.width ++ "×" ++ toString r.height ++ ")"
          else "Imported equirect"),
        fileName := some r.fileName,
        width := some (r.originalWidth : ℚ),
        height := some (r.originalHeight : ℚ) },
    initialView := { yaw := 0, pitch := 0, fov := 5/4 },
    hotspots := [] }

/-- One iteration per remaining file, threading the index `k` used for
the minted scene id and the scene-name fallback. Returns the collected
`newScenes`, the assets persisted so far, and the first failure, if any.
On a failure the loop body rejects before `saveAssetToIdb`, so the
failing file persists nothing and later files are never reached. -/
def importLoop (p : Project) (ids : ℕ → String) (now : String) (safeMax : ℕ) :
    ℕ → List (ImageFile × PipelineEnv) →
    List Scene × List StoredAsset × Option NormError
  | _, [] => ([], [], none)
  | k, (f, env) :: rest =>
    match (processEquirectToSafeBlob f safeMax "image/jpeg" (9/10) env).1 with
    | .error e => ([], [], some e)
    | .ok r =>
        let id := ids k
        let scene := importScene p k id f r
        let stored : StoredAsset :=
          { sceneId := id, fileName := r.fileName, blob := r.blob,
            width := r.width, height := r.height,
            originalWidth := r.originalWidth, originalHeight := r.originalHeight,
            updatedAt := now }
        let step := importLoop p ids now safeMax (k + 1) rest
        (scene :: step.1, stored :: step.2.1, step.2.2)

/-- Observable outcome of one `handleImportFiles` call: the project
state after the call settles, the assets persisted to IndexedDB, and
the rejection (if the call rejected). -/
structure ImportOutcome where
  project : Project
  savedAssets : List StoredAsset
  failure : Option NormError
deriving DecidableEq

/-- `handleImportFiles(files)`. `ids k` stands for the `uid('scene')`
minted for the `k`-th file and `now` for the timestamps taken during
the batch. When any file fails, the async function rejects:
`setProject` is never executed and the project is left unchanged, while
assets persisted for earlier files stay persisted. -/
def handleImportFiles (p : Project) (files : List (ImageFile × PipelineEnv))
    (ids : ℕ → String) (now : String) (safeMax : ℕ) : ImportOutcome :=
  if files.isEmpty then { project := p, savedAssets := [], failure := none }
  else
    let run := importLoop p ids now safeMax 0 files
    match run.2.2 with
    | some e => { project := p, savedAssets := run.2.1, failure := some e }
    | none =>
        { project := touchProject { p with scenes := p.scenes ++ run.1 } now,
          savedAssets := run.2.1, failure := none }

/-! ## Hotspot mutations (`src/App.tsx`)

`selectedScene` is `project.scenes.find(s => s.id === selectedSceneId)`;
both mutations are no-ops when it is `null`, and otherwise map over the
scene list replacing the matching scene(s) and `touch` the project. -/

/-- The memoized `selectedScene`:
`scenes.find(s => s.id === selectedSceneId) || null`. -/
def selectedSceneOf (p : Project) (selectedSceneId : Option String) : Option Scene :=
  match selectedSceneId with
  | none => none
  | some sid => p.scenes.find? (fun s => s.id == sid)

/-- `addInfoHotspot(yaw, pitch)`: appends `{ id: uid('hs'), type:'info',
yaw, pitch, title: "Info " + (#info hotspots + 1), text: '' }` to the
selected scene. `newId` stands for the freshly minted `uid('hs')`. -/
def addInfoHotspot (p : Project) (selectedSceneId : Option String) (newId : String)
    (yaw pitch : ℚ) (now : String) : Project :=
  match selectedSceneOf p selectedSceneId with
  | none => p
  | some sel =>
      let infoCount := (sel.hotspots.filter (fun h =>
        match h with | .info .. => true | .link .. => false)).length
      let hotspot : Hotspot :=
        .info newId yaw pitch (some ("Info " ++ toString (infoCount + 1))) (some "")
      touchProject
        { p with scenes := p.scenes.map (fun s =>
            if s.id = sel.id then { s with hotspots := s.hotspots ++ [hotspot] } else s) }
        now

/-- `deleteHotspot(hotspotId)`: removes the hotspot with that id from
the selected scene's list (`hotspots.filter(h => h.id !== hotspotId)`). -/
def deleteHotspot (p : Project) (selectedSceneId : Option String) (hotspotId : String)
    (now : String) : Project :=
  match selectedSceneOf p selectedSceneId with
  | none => p
  | some sel =>
      touchProject
        { p with scenes := p.scenes.map (fun s =>
            if s.id = sel.id then
              { s with hotspots := s.hotspots.filter (fun h => h.id != hotspotId) }
            else s) }
        now

/-! ## Export bundler (`src/lib/exportViewer.ts`) -/

/-- The character class `[a-zA-Z0-9._-]` of `safeFileName`'s regex. -/
def isSafeChar (c : Char) : Bool :=
  ('a' ≤ c && c ≤ 'z') || ('A' ≤ c && c ≤ 'Z') || ('0' ≤ c && c ≤ '9')
    || c == '.' || c == '_' || c == '-'

/-- `name.replace(/[^a-zA-Z0-9._-]+/g, '_')`: each *maximal run* of
characters outside the class becomes a single `'_'` (the regex quantifier
is `+`). `prevUnsafe` tracks whether the previous character belonged to a
run that already emitted its underscore. -/
def collapseUnsafe : Bool → List Char → List Char
  | _, [] => []
  | prevUnsafe, c :: rest =>
      if isSafeChar c then c :: collapseUnsafe false rest
      else if prevUnsafe then collapseUnsafe true rest
      else '_' :: collapseUnsafe true rest

/-- `.replace(/^_+|_+$/g, '')`: drop leading and trailing underscores. -/
def trimUnderscores (l : List Char) : List Char :=
  ((l.dropWhile (fun c => c == '_')).reverse.dropWhile (fun c => c == '_')).reverse

/-- `safeFileName(name)`: collapse unsafe runs, trim underscores, and
fall back to `'file'` when the result is empty (`|| 'file'`). -/
def safeFileName (name : List Char) : List Char :=
  let t := trimUnderscores (collapseUnsafe false name)
  if t.isEmpty then "file".toList else t

/-- `ExportAsset` as collected by `collectAssetsForExport`. -/
structure ExportAsset where
  sceneId : String
  blob : Payload
  fileName : List Char
deriving DecidableEq

/-- `collectAssetsForExport(project, assets)`: walk the scenes in order,
skip scenes with no stored blob, and name each kept asset
`` safeFileName(`${scene.id}.jpg`) ``. -/
def collectAssetsForExport (project : Project) (assets : String → Option StoredAsset) :
    List ExportAsset :=
  project.scenes.filterMap (fun scene =>
    match assets scene.id with
    | none => none
    | some stored =>
        some { sceneId := scene.id, blob := stored.blob,
               fileName := safeFileName (scene.id.toList ++ ".jpg".toList) })

/-- The `writeFile(assetsDir, a.fileName, a.blob)` calls issued by the
folder-mode `exportViewer`, in order. -/
def assetsDirWrites (project : Project) (assets : String → Option StoredAsset) :
    List (List Char × Payload) :=
  (collectAssetsForExport project assets).map (fun a => (a.fileName, a.blob))

/-- The files present in `assets/` once the export finishes: one file
per *distinct* written name (a later write to an existing name
overwrites it). -/
def assetsDirFiles (project : Project) (assets : String → Option StoredAsset) :
    List (List Char) :=
  ((assetsDirWrites project assets).map Prod.fst).dedup

/-! ## Arithmetic facts about the scaling computation -/

theorem jsRound_natCast (n : ℕ) : jsRound (n : ℚ) = n := by
  have h : ⌊(n : ℚ) + 1/2⌋ = (n : ℤ) := by
    rw [Int.floor_eq_iff]
    constructor <;> push_cast <;> linarith
  unfold jsRound
  rw [h]
  exact Int.toNat_natCast n

theorem jsRound_mono {q r : ℚ} (h : q ≤ r) : jsRound q ≤ jsRound r := by
  exact Int.toNat_le_toNat (Int.floor_mono (by linarith))

theorem jsRound_le_nat {q : ℚ} {n : ℕ} (h : q ≤ n) : jsRound q ≤ n := by
  calc jsRound q ≤ jsRound (n : ℚ) := jsRound_mono h
    _ = n := jsRound_natCast n

theorem computeScale_eq_one {safeMax ow oh : ℕ} (h : max ow oh ≤ safeMax) :
    computeScale safeMax ow oh = 1 := by
  unfold computeScale
  split_ifs with h0
  · rfl
  · have hpos : (0 : ℚ) < (max ow oh : ℕ) := by
      exact_mod_cast Nat.pos_of_ne_zero h0
    have : (1 : ℚ) ≤ (safeMax : ℚ) / (max ow oh : ℕ) := by
      rw [le_div_iff₀ hpos]
      simpa using (by exact_mod_cast h : ((max ow oh : ℕ) : ℚ) ≤ (safeMax : ℚ))
    simpa [min_eq_left this]

theorem computeScale_of_lt {safeMax ow oh : ℕ} (h : safeMax < max ow oh) :
    computeScale safeMax ow oh = (safeMax : ℚ) / (max ow oh : ℕ) := by
  have h0 : max ow oh ≠ 0 := by omega
  have hpos : (0 : ℚ) < (max ow oh : ℕ) := by
    exact_mod_cast Nat.pos_of_ne_zero h0
  have hlt : (safeMax : ℚ) / (max ow oh : ℕ) < 1 := by
    rw [div_lt_one hpos]
    exact_mod_cast h
  unfold computeScale
  rw [if_neg h0, ← Nat.cast_max, min_eq_right hlt.le]

theorem computeScale_ne_one {safeMax ow oh : ℕ} (h : safeMax < max ow oh) :
    computeScale safeMax ow oh ≠ 1 := by
  rw [computeScale_of_lt h]
  have h0 : max ow oh ≠ 0 := by omega
  have hpos : (0 : ℚ) < (max ow oh : ℕ) := by
    exact_mod_cast Nat.pos_of_ne_zero h0
  have hlt : (safeMax : ℚ) / (max ow oh : ℕ) < 1 := by
    rw [div_lt_one hpos]
    exact_mod_cast h
  exact ne_of_lt hlt

theorem computeScale_nonneg (safeMax ow oh : ℕ) : 0 ≤ computeScale safeMax ow oh := by
  unfold computeScale
  split_ifs with h0
  · norm_num
  · exact le_min (by norm_num) (by positivity)

theorem computeScale_le_one (safeMax ow oh : ℕ) : computeScale safeMax ow oh ≤ 1 := by
  unfold computeScale
  split_ifs with h0
  · exact le_refl 1
  · exact min_le_left _ _

/-! ## Dimension bounds for the downscale branch -/

theorem downscale_dims {safeMax ow oh : ℕ} (hgt : safeMax < max ow oh) :
    max (jsRound ((ow : ℚ) * computeScale safeMax ow oh))
        (jsRound ((oh : ℚ) * computeScale safeMax ow oh)) = safeMax
    ∧ jsRound ((ow : ℚ) * computeScale safeMax ow oh) ≤ ow
    ∧ jsRound ((oh : ℚ) * computeScale safeMax ow oh) ≤ oh := by
  have hs_nonneg := computeScale_nonneg safeMax ow oh
  have hs_le_one := computeScale_le_one safeMax ow oh
  have hle_ow : jsRound ((ow : ℚ) * computeScale safeMax ow oh) ≤ ow :=
    jsRound_le_nat (mul_le_of_le_one_right (Nat.cast_nonneg ow) hs_le_one)
  have hle_oh : jsRound ((oh : ℚ) * computeScale safeMax ow oh) ≤ oh :=
    jsRound_le_nat (mul_le_of_le_one_right (Nat.cast_nonneg oh) hs_le_one)
  refine ⟨?_, hle_ow, hle_oh⟩
  rcases le_total oh ow with hcase | hcase
  · have hmax : max ow oh = ow := Nat.max_eq_left hcase
    have how : ((ow : ℕ) : ℚ) ≠ 0 := by
      have : 0 < ow := by omega
      exact_mod_cast this.ne'
    have hexact : (ow : ℚ) * computeScale safeMax ow oh = (safeMax : ℚ) := by
      rw [computeScale_of_lt hgt, hmax]
      field_simp
    have hw : jsRound ((ow : ℚ) * computeScale safeMax ow oh) = safeMax := by
      rw [hexact, jsRound_natCast]
    have hh : jsRound ((oh : ℚ) * computeScale safeMax ow oh) ≤ safeMax := by
      calc jsRound ((oh : ℚ) * computeScale safeMax ow oh)
          ≤ jsRound ((ow : ℚ) * computeScale safeMax ow oh) :=
            jsRound_mono (mul_le_mul_of_nonneg_right (Nat.cast_le.mpr hcase) hs_nonneg)
        _ = safeMax := hw
    rw [hw]
    exact Nat.max_eq_left hh
  · have hmax : max ow oh = oh := Nat.max_eq_right hcase
    have hoh : ((oh : ℕ) : ℚ) ≠ 0 := by
      have : 0 < oh := by omega
      exact_mod_cast this.ne'
    have hexact : (oh : ℚ) * computeScale safeMax ow oh = (safeMax : ℚ) := by
      rw [computeScale_of_lt hgt, hmax]
      field_simp
    have hh : jsRound ((oh : ℚ) * computeScale safeMax ow oh) = safeMax := by
      rw [hexact, jsRound_natCast]
    have hw : jsRound ((ow : ℚ) * computeScale safeMax ow oh) ≤ safeMax := by
      calc jsRound ((ow : ℚ) * computeScale safeMax ow oh)
          ≤ jsRound ((oh : ℚ) * computeScale safeMax ow oh) :=
            jsRound_mono (mul_le_mul_of_nonneg_right (Nat.cast_le.mpr hcase) hs_nonneg)
        _ = safeMax := hh
    rw [hh]
    exact Nat.max_eq_right hw

/-- Core fact: when the decoded dimensions are within `safeMax`, the run
takes the `scale === 1` passthrough branch. -/
theorem passthrough_spec (file : ImageFile) (safeMax : ℕ) (mime : String)
    (quality : ℚ) (env : PipelineEnv) (ow oh : ℕ)
    (hdec : env.decode = .fastOk ow oh ∨ env.decode = .fallbackOk ow oh)
    (hle : max ow oh ≤ safeMax) :
    (processEquirectToSafeBlob file safeMax mime quality env).1 =
      .ok { blob := .original file.bytes, width := ow, height := oh,
            originalWidth := ow, originalHeight := oh, fileName := file.name } := by
  have hs := computeScale_eq_one hle
  rcases hdec with h | h <;>
    simp [processEquirectToSafeBlob, h, processDecoded, hs, jsRound_natCast]

/-- Core fact: when the decoded dimensions exceed `safeMax` and canvas
and encoder are available, the run re-encodes at the rounded scaled
dimensions. -/
theorem downscale_spec (file : ImageFile) (safeMax : ℕ) (mime : String)
    (quality : ℚ) (env : PipelineEnv) (ow oh : ℕ)
    (hdec : env.decode = .fastOk ow oh ∨ env.decode = .fallbackOk ow oh)
    (hgt : safeMax < max ow oh)
    (hctx : env.ctxAvailable = true) (henc : env.encodeOk = true) :
    (processEquirectToSafeBlob file safeMax mime quality env).1 =
      .ok { blob := .encoded (jsRound ((ow : ℚ) * computeScale safeMax ow oh))
                             (jsRound ((oh : ℚ) * computeScale safeMax ow oh)) mime quality,
            width := jsRound ((ow : ℚ) * computeScale safeMax ow oh),
            height := jsRound ((oh : ℚ) * computeScale safeMax ow oh),
            originalWidth := ow, originalHeight := oh, fileName := file.name } := by
  have hne := computeScale_ne_one hgt
  rcases hdec with h | h <;>
    simp [processEquirectToSafeBlob, h, processDecoded, hne, hctx, henc]

/-- C3: for any input whose decoded dimensions are within `safeMax`,
`processEquirectToSafeBlob` resolves with the original file bytes as the
payload (bit-exact) and with `width`/`height` equal to the original
dimensions. -/
theorem normalize_passthrough (file : ImageFile) (safeMax : ℕ) (mime : String)
    (quality : ℚ) (env : PipelineEnv) (ow oh : ℕ)
    (hdec : env.decode = .fastOk ow oh ∨ env.decode = .fallbackOk ow oh)
    (hle : max ow oh ≤ safeMax) :
    (processEquirectToSafeBlob file safeMax mime quality env).1 =
      .ok { blob := .original file.bytes, width := ow, height := oh,
            originalWidth := ow, originalHeight := oh, fileName := file.name } :=
  passthrough_spec file safeMax mime quality env ow oh hdec hle

/-- Witness for C3: a 4000×2000 image against safe maximum 8192 passes
through bit-exact. -/
theorem normalize_passthrough_witness :
    max 4000 2000 ≤ 8192 ∧
    (processEquirectToSafeBlob ⟨"pano.jpg", [7, 7, 7]⟩ 8192 "image/jpeg" (9/10)
        ⟨.fastOk 4000 2000, true, true⟩).1 =
      .ok { blob := .original [7, 7, 7], width := 4000, height := 2000,
            originalWidth := 4000, originalHeight := 2000, fileName := "pano.jpg" } :=
  ⟨by norm_num,
   normalize_passthrough ⟨"pano.jpg", [7, 7, 7]⟩ 8192 "image/jpeg" (9/10)
     ⟨.fastOk 4000 2000, true, true⟩ 4000 2000 (Or.inl rfl) (by norm_num)⟩

/-- C4: any image exceeding `safeMax` is re-encoded with its longer edge
exactly `safeMax` and both dimensions at most the originals; in
particular 12000×6000 at safe maximum 8192 yields exactly 8192×4096,
while 4000×2000 at the same safe maximum passes through unchanged. -/
theorem normalize_downscale_bounds :
    (∀ (file : ImageFile) (safeMax : ℕ) (mime : String) (quality : ℚ)
       (env : PipelineEnv) (ow oh : ℕ),
      (env.decode = .fastOk ow oh ∨ env.decode = .fallbackOk ow oh) →
      safeMax < max ow oh →
      env.ctxAvailable = true → env.encodeOk = true →
      (processEquirectToSafeBlob file safeMax mime quality env).1 =
        .ok { blob := .encoded (jsRound ((ow : ℚ) * computeScale safeMax ow oh))
                               (jsRound ((oh : ℚ) * computeScale safeMax ow oh)) mime quality,
              width := jsRound ((ow : ℚ) * computeScale safeMax ow oh),
              height := jsRound ((oh : ℚ) * computeScale safeMax ow oh),
              originalWidth := ow, originalHeight := oh, fileName := file.name }
      ∧ max (jsRound ((ow : ℚ) * computeScale safeMax ow oh))
            (jsRound ((oh : ℚ) * computeScale safeMax ow oh)) = safeMax
      ∧ jsRound ((ow : ℚ) * computeScale safeMax ow oh) ≤ ow
      ∧ jsRound ((oh : ℚ) * computeScale safeMax ow oh) ≤ oh)
    ∧ (processEquirectToSafeBlob ⟨"big.jpg", [1]⟩ 8192 "image/jpeg" (9/10)
          ⟨.fastOk 12000 6000, true, true⟩).1 =
        .ok { blob := .encoded 8192 4096 "image/jpeg" (9/10), width := 8192, height := 4096,
              originalWidth := 12000, originalHeight := 6000, fileName := "big.jpg" }
    ∧ (processEquirectToSafeBlob ⟨"small.jpg", [2]⟩ 8192 "image/jpeg" (9/10)
          ⟨.fastOk 4000 2000, true, true⟩).1 =
        .ok { blob := .original [2], width := 4000, height := 2000,
              originalWidth := 4000, originalHeight := 2000, fileName := "small.jpg" } := by
  have hcs : computeScale 8192 12000 6000 = (8192 : ℚ) / 12000 := by
    rw [computeScale_of_lt (by norm_num)]
    norm_num
  refine ⟨?_, ?_, ?_⟩
  · intro file safeMax mime quality env ow oh hdec hgt hctx henc
    exact ⟨downscale_spec file safeMax mime quality env ow oh hdec hgt hctx henc,
           downscale_dims hgt⟩
  · rw [downscale_spec ⟨"big.jpg", [1]⟩ 8192 "image/jpeg" (9/10)
      ⟨.fastOk 12000 6000, true, true⟩ 12000 6000 (Or.inl rfl) (by norm_num) rfl rfl, hcs]
    norm_num [jsRound]
    exact ⟨rfl, rfl⟩
  · exact passthrough_spec ⟨"small.jpg", [2]⟩ 8192 "image/jpeg" (9/10)
      ⟨.fastOk 4000 2000, true, true⟩ 4000 2000 (Or.inl rfl) (by norm_num)

/-- Witness for C4: the general bound applied to the 12000×6000 example. -/
theorem normalize_downscale_bounds_witness :
    (processEquirectToSafeBlob ⟨"big.jpg", [1]⟩ 8192 "image/jpeg" (9/10)
        ⟨.fastOk 12000 6000, true, true⟩).1 =
      .ok { blob := .encoded (jsRound ((12000 : ℚ) * computeScale 8192 12000 6000))
                             (jsRound ((6000 : ℚ) * computeScale 8192 12000 6000))
                             "image/jpeg" (9/10),
            width := jsRound ((12000 : ℚ) * computeScale 8192 12000 6000),
            height := jsRound ((6000 : ℚ) * computeScale 8192 12000 6000),
            originalWidth := 12000, originalHeight := 6000, fileName := "big.jpg" }
    ∧ max (jsRound ((12000 : ℚ) * computeScale 8192 12000 6000))
          (jsRound ((6000 : ℚ) * computeScale 8192 12000 6000)) = 8192
    ∧ jsRound ((12000 : ℚ) * computeScale 8192 12000 6000) ≤ 12000
    ∧ jsRound ((6000 : ℚ) * computeScale 8192 12000 6000) ≤ 6000 := by
  have h := normalize_downscale_bounds.1 ⟨"big.jpg", [1]⟩ 8192 "image/jpeg" (9/10)
    ⟨.fastOk 12000 6000, true, true⟩ 12000 6000 (Or.inl rfl) (by norm_num) rfl rfl
  exact_mod_cast h

/-- C5 (counterexample): the claim that every exit path releases the
bitmap and revokes the fallback object URL is false. With the canvas 2D
context unavailable the run throws after decoding, skipping
`bitmap.close()`; and when both decode paths fail, the fallback's object
URL was created but never revoked. -/
theorem normalize_release_cex :
    ((processEquirectToSafeBlob ⟨"big.jpg", [1]⟩ 8192 "image/jpeg" (9/10)
        ⟨.fastOk 12000 6000, false, true⟩).1 = .error .ctxUnavailable
     ∧ (processEquirectToSafeBlob ⟨"big.jpg", [1]⟩ 8192 "image/jpeg" (9/10)
        ⟨.fastOk 12000 6000, false, true⟩).2.bitmapCreated = true
     ∧ (processEquirectToSafeBlob ⟨"big.jpg", [1]⟩ 8192 "image/jpeg" (9/10)
        ⟨.fastOk 12000 6000, false, true⟩).2.bitmapClosed = false)
    ∧ ((processEquirectToSafeBlob ⟨"bad.bin", [3]⟩ 8192 "image/jpeg" (9/10)
        ⟨.failed, true, true⟩).1 = .error .decodeError
     ∧ (processEquirectToSafeBlob ⟨"bad.bin", [3]⟩ 8192 "image/jpeg" (9/10)
        ⟨.failed, true, true⟩).2.urlCreated = true
     ∧ (processEquirectToSafeBlob ⟨"bad.bin", [3]⟩ 8192 "image/jpeg" (9/10)
        ⟨.failed, true, true⟩).2.urlRevoked = false) := by
  have hrun : processEquirectToSafeBlob ⟨"big.jpg", [1]⟩ 8192 "image/jpeg" (9/10)
      ⟨.fastOk 12000 6000, false, true⟩ =
      (.error .ctxUnavailable,
       { urlCreated := false, urlRevoked := false,
         bitmapCreated := true, bitmapClosed := false }) := by
    have hne := computeScale_ne_one (by norm_num : (8192 : ℕ) < max 12000 6000)
    simp [processEquirectToSafeBlob, processDecoded, hne]
  exact ⟨⟨by rw [hrun], by rw [hrun], by rw [hrun]⟩, rfl, rfl, rfl⟩

/-- C5 (amended): the bitmap and the fallback object URL are released
exactly on the successful exits (passthrough and successful re-encode);
on every failing exit (decode failure, missing 2D context, encode
failure) the bitmap is not closed and the object URL is not revoked. -/
theorem normalize_release_on_success_only (file : ImageFile) (safeMax : ℕ)
    (mime : String) (quality : ℚ) (env : PipelineEnv) :
    (∀ res, (processEquirectToSafeBlob file safeMax mime quality env).1 = .ok res →
      (processEquirectToSafeBlob file safeMax mime quality env).2.bitmapClosed = true
      ∧ (processEquirectToSafeBlob file safeMax mime quality env).2.urlRevoked =
          (processEquirectToSafeBlob file safeMax mime quality env).2.urlCreated)
    ∧ (∀ e, (processEquirectToSafeBlob file safeMax mime quality env).1 = .error e →
      (processEquirectToSafeBlob file safeMax mime quality env).2.bitmapClosed = false
      ∧ (processEquirectToSafeBlob file safeMax mime quality env).2.urlRevoked = false) := by
  have main : ∀ (ow oh : ℕ) (fb : Bool),
      (∀ res, (processDecoded file safeMax mime quality env ow oh fb).1 = .ok res →
        (processDecoded file safeMax mime quality env ow oh fb).2.bitmapClosed = true
        ∧ (processDecoded file safeMax mime quality env ow oh fb).2.urlRevoked =
            (processDecoded file safeMax mime quality env ow oh fb).2.urlCreated)
      ∧ (∀ e, (processDecoded file safeMax mime quality env ow oh fb).1 = .error e →
        (processDecoded file safeMax mime quality env ow oh fb).2.bitmapClosed = false
        ∧ (processDecoded file safeMax mime quality env ow oh fb).2.urlRevoked = false) := by
    intro ow oh fb
    simp only [processDecoded]
    split_ifs <;> simp
  cases hdec : env.decode with
  | failed => exact ⟨by intro res h; simp [processEquirectToSafeBlob, hdec] at h,
                    by intro e h; simp [processEquirectToSafeBlob, hdec]⟩
  | fastOk ow oh => simpa [processEquirectToSafeBlob, hdec] using main ow oh false
  | fallbackOk ow oh => simpa [processEquirectToSafeBlob, hdec] using main ow oh true

/-- Witness for the amended C5: on the double decode failure nothing is
released. -/
theorem normalize_release_on_success_only_witness :
    (processEquirectToSafeBlob ⟨"w.bin", [9]⟩ 8192 "image/jpeg" (9/10)
        ⟨.failed, true, true⟩).2.bitmapClosed = false
    ∧ (processEquirectToSafeBlob ⟨"w.bin", [9]⟩ 8192 "image/jpeg" (9/10)
        ⟨.failed, true, true⟩).2.urlRevoked = false :=
  (normalize_release_on_success_only ⟨"w.bin", [9]⟩ 8192 "image/jpeg" (9/10)
    ⟨.failed, true, true⟩).2 .decodeError rfl


/-- C2: a structured record with a textual `title` and an array `scenes`
whose `version` is not strictly the number `1` is always rejected by the
load path with the unsupported-version error, whatever the rest of the
content. -/
theorem load_version_ne_one_fails (fields : List (String × JsValue))
    (_htitle : ((JsValue.obj fields).getField "title").isStr = true)
    (_hscenes : ((JsValue.obj fields).getField "scenes").isArr = true)
    (hver : ((JsValue.obj fields).getField "version").isNumOne = false) :
    loadProject (.obj fields) = .error .unsupportedVersion := by
  simp [loadProject, assertIsProject, JsValue.truthy, JsValue.typeofObject, hver]

/-- Witness for C2: version `2` with otherwise-valid content is refused. -/
theorem load_version_ne_one_fails_witness :
    loadProject (.obj [("version", .num 2), ("title", .str "My tour"),
        ("scenes", .arr [.str "not a scene"])]) = .error .unsupportedVersion :=
  load_version_ne_one_fails
    [("version", .num 2), ("title", .str "My tour"), ("scenes", .arr [.str "not a scene"])]
    rfl rfl rfl

/-- C10: `assertIsProject` succeeds exactly when the candidate is a
truthy value of `typeof 'object'` whose `version` is strictly `1`, whose
`title` is a string and whose `scenes` is an array; the elements of
`scenes` are never inspected, so a document whose scenes array holds
arbitrary non-scene values still validates. -/
theorem assertIsProject_ok_iff :
    (∀ v : JsValue, assertIsProject v = .ok () ↔
      (v.truthy = true ∧ v.typeofObject = true
        ∧ (v.getField "version").isNumOne = true
        ∧ (v.getField "title").isStr = true
        ∧ (v.getField "scenes").isArr = true))
    ∧ (∀ (t : String) (elems : List JsValue),
        assertIsProject (.obj [("version", .num 1), ("title", .str t),
          ("scenes", .arr elems)]) = .ok ()) := by
  constructor
  · intro v
    unfold assertIsProject
    split_ifs with h1 h2 h3 h4 <;> simp_all
    rcases h1 with h | h <;> simp_all
  · intro t elems
    rfl


/-- C8: saving a project and loading the result back succeeds and yields
exactly the serialized document (`updatedAt` included), and serialization
loses nothing: the reference decoder recovers the original project. -/
theorem save_load_roundtrip (p : Project) (hv : p.version = 1) :
    loadProject (saveProject p) = .ok (projectToJson p)
    ∧ decodeProject (projectToJson p) = some p := by
  obtain ⟨v, c, u, t, ss⟩ := p
  simp only at hv
  subst hv
  exact ⟨rfl, decodeProject_toJson _⟩

/-- Witness for C8: round-tripping a freshly created project. -/
theorem save_load_roundtrip_witness :
    loadProject (saveProject (createEmptyProject "Orbitry MVP" "2024-01-01T00:00:00.000Z"))
      = .ok (projectToJson (createEmptyProject "Orbitry MVP" "2024-01-01T00:00:00.000Z"))
    ∧ decodeProject (projectToJson (createEmptyProject "Orbitry MVP" "2024-01-01T00:00:00.000Z"))
      = some (createEmptyProject "Orbitry MVP" "2024-01-01T00:00:00.000Z") :=
  save_load_roundtrip (createEmptyProject "Orbitry MVP" "2024-01-01T00:00:00.000Z") rfl

/-- C9: adding an info hotspot at `(yaw, pitch)` to the selected scene
and then deleting that hotspot by its id restores the scene list exactly
(hence that scene's hotspot list), provided the minted id is not already
used by a hotspot of the project — the statistical guarantee `uid`
provides. -/
theorem add_delete_hotspot_restores (p : Project) (sid : Option String)
    (newId : String) (yaw pitch : ℚ) (t1 t2 : String)
    (hfresh : ∀ s ∈ p.scenes, ∀ h ∈ s.hotspots, Hotspot.id h ≠ newId) :
    (deleteHotspot (addInfoHotspot p sid newId yaw pitch t1) sid newId t2).scenes
      = p.scenes := by
  cases sid with
  | none => rfl
  | some sid0 =>
    cases hfind : p.scenes.find? (fun s => s.id == sid0) with
    | none =>
        simp [addInfoHotspot, deleteHotspot, selectedSceneOf, hfind]
    | some sel =>
        set newHot : Hotspot :=
          .info newId yaw pitch
            (some ("Info " ++ toString ((sel.hotspots.filter (fun h =>
              match h with | .info .. => true | .link .. => false)).length + 1)))
            (some "") with hnewHot
        set f : Scene → Scene := fun s =>
          if s.id = sel.id then { s with hotspots := s.hotspots ++ [newHot] } else s
          with hf
        have hfid : ∀ s : Scene, (f s).id = s.id := by
          intro s
          by_cases h : s.id = sel.id <;> simp [hf, h]
        have hadd : (addInfoHotspot p (some sid0) newId yaw pitch t1).scenes
            = p.scenes.map f := by
          simp [addInfoHotspot, selectedSceneOf, hfind, touchProject, hf, hnewHot]
        have hfind2 : selectedSceneOf (addInfoHotspot p (some sid0) newId yaw pitch t1)
            (some sid0) = some (f sel) := by
          simp only [selectedSceneOf]
          rw [hadd, List.find?_map]
          have hpred : (fun s => Scene.id s == sid0) ∘ f = fun s => s.id == sid0 := by
            funext s
            simp [Function.comp, hfid]
          rw [hpred, hfind]
          rfl
        have hgf : ∀ s ∈ p.scenes,
            (if (f s).id = (f sel).id then
              { f s with hotspots := (f s).hotspots.filter (fun h => h.id != newId) }
            else f s) = s := by
          intro s hs
          have hkeep : s.hotspots.filter (fun h => h.id != newId) = s.hotspots := by
            apply List.filter_eq_self.mpr
            intro h hh
            simpa using hfresh s hs h hh
          have hcond : ((f s).id = (f sel).id) ↔ (s.id = sel.id) := by
            rw [hfid, hfid]
          by_cases hid : s.id = sel.id
          · rw [if_pos (hcond.mpr hid)]
            have hfs : f s = { s with hotspots := s.hotspots ++ [newHot] } := by
              rw [hf]
              exact if_pos hid
            rw [hfs]
            show ({ s with hotspots :=
              (s.hotspots ++ [newHot]).filter (fun h => h.id != newId) } : Scene) = s
            have hdrop : [newHot].filter (fun h => h.id != newId) = [] := by
              simp [hnewHot, Hotspot.id]
            rw [List.filter_append, hkeep, hdrop, List.append_nil]
          · rw [if_neg (fun hc => hid (hcond.mp hc))]
            rw [hf]
            exact if_neg hid
        have hdel : (deleteHotspot (addInfoHotspot p (some sid0) newId yaw pitch t1)
              (some sid0) newId t2).scenes
            = (addInfoHotspot p (some sid0) newId yaw pitch t1).scenes.map (fun s =>
                if s.id = (f sel).id then
                  { s with hotspots := s.hotspots.filter (fun h => h.id != newId) }
                else s) := by
          simp only [deleteHotspot, hfind2, touchProject]
        rw [hdel, hadd, List.map_map]
        calc p.scenes.map ((fun s =>
                if s.id = (f sel).id then
                  { s with hotspots := s.hotspots.filter (fun h => h.id != newId) }
                else s) ∘ f)
            = p.scenes.map (fun s => s) := by
              apply List.map_congr_left
              intro s hs
              simpa [Function.comp] using hgf s hs
          _ = p.scenes := List.map_id _

/-- Witness for C9: one scene with one pre-existing hotspot; adding at
`(0.5, -0.2)` and deleting restores the list. -/
theorem add_delete_hotspot_restores_witness :
    (deleteHotspot
        (addInfoHotspot
          { version := 1, createdAt := "c", updatedAt := "u", title := "T",
            scenes := [{ id := "scene_1", name := "One",
                         panorama := ⟨none, none, none, none⟩,
                         initialView := ⟨0, 0, 5/4⟩,
                         hotspots := [.info "hs_a" 0 0 none none] }] }
          (some "scene_1") "hs_new" (1/2) (-1/5) "t1")
        (some "scene_1") "hs_new" "t2").scenes
      = [{ id := "scene_1", name := "One",
           panorama := ⟨none, none, none, none⟩,
           initialView := ⟨0, 0, 5/4⟩,
           hotspots := [.info "hs_a" 0 0 none none] }] :=
  add_delete_hotspot_restores
    { version := 1, createdAt := "c", updatedAt := "u", title := "T",
      scenes := [{ id := "scene_1", name := "One",
                   panorama := ⟨none, none, none, none⟩,
                   initialView := ⟨0, 0, 5/4⟩,
                   hotspots := [.info "hs_a" 0 0 none none] }] }
    (some "scene_1") "hs_new" (1/2) (-1/5) "t1" "t2"
    (by decide)


/-! ## C1: what one failing file does to an import batch -/

/-- A fresh project as the editor starts. -/
def importCexProject : Project := createEmptyProject "Orbitry MVP" "t0"

/-- Scene-id minting for the batch (`uid('scene')` per file). -/
def importCexIds : ℕ → String := fun k => "scene_" ++ toString k

/-- A file whose decode fails, then a perfectly fine file. -/
def importCexBatchA : List (ImageFile × PipelineEnv) :=
  [(⟨"two.bin", [2]⟩, ⟨.failed, true, true⟩),
   (⟨"one.jpg", [1]⟩, ⟨.fastOk 4000 2000, true, true⟩)]

/-- A perfectly fine file, then a file whose decode fails. -/
def importCexBatchB : List (ImageFile × PipelineEnv) :=
  [(⟨"one.jpg", [1]⟩, ⟨.fastOk 4000 2000, true, true⟩),
   (⟨"two.bin", [2]⟩, ⟨.failed, true, true⟩)]

/-- C1 (counterexample): a decode failure does NOT abort only the failing
file. In batch A the failure of file 1 prevents file 2 (fully decodable)
from being processed at all; in batch B file 1 is normalized and
persisted (one saved asset), yet the project still ends with zero scenes
— where the claim promises one scene per successfully imported file. -/
theorem import_batch_abort_cex :
    ((handleImportFiles importCexProject importCexBatchA importCexIds "t1" 8192).failure
        = some .decodeError
     ∧ (handleImportFiles importCexProject importCexBatchA importCexIds "t1" 8192).savedAssets
        = []
     ∧ (handleImportFiles importCexProject importCexBatchA importCexIds "t1" 8192).project.scenes.length
        = 0)
    ∧ ((handleImportFiles importCexProject importCexBatchB importCexIds "t1" 8192).failure
        = some .decodeError
     ∧ (handleImportFiles importCexProject importCexBatchB importCexIds "t1" 8192).savedAssets.length
        = 1
     ∧ (handleImportFiles importCexProject importCexBatchB importCexIds "t1" 8192).project.scenes.length
        = 0) := by
  have h1 : (processEquirectToSafeBlob ⟨"one.jpg", [1]⟩ 8192 "image/jpeg" (9/10)
      ⟨.fastOk 4000 2000, true, true⟩).1 =
      .ok { blob := .original [1], width := 4000, height := 2000,
            originalWidth := 4000, originalHeight := 2000, fileName := "one.jpg" } :=
    passthrough_spec ⟨"one.jpg", [1]⟩ 8192 "image/jpeg" (9/10)
      ⟨.fastOk 4000 2000, true, true⟩ 4000 2000 (Or.inl rfl) (by norm_num)
  have h2 : (processEquirectToSafeBlob ⟨"two.bin", [2]⟩ 8192 "image/jpeg" (9/10)
      ⟨.failed, true, true⟩).1 = .error .decodeError := rfl
  refine ⟨⟨rfl, rfl, rfl⟩, ?_, ?_, ?_⟩
  · simp [handleImportFiles, importCexBatchB, importLoop, h1, h2]
  · simp [handleImportFiles, importCexBatchB, importLoop, h1, h2]
  · simp [handleImportFiles, importCexBatchB, importLoop, h1, h2,
      importCexProject, createEmptyProject]

/-- C1 (amended): a normalization failure aborts the entire batch — the
call rejects and the project is left unchanged, no scene is appended for
any file (assets persisted before the failure stay persisted, visible in
`savedAssets`); only a fully successful batch appends scenes, exactly one
per input file. -/
theorem import_batch_all_or_nothing (p : Project)
    (files : List (ImageFile × PipelineEnv)) (ids : ℕ → String) (now : String)
    (safeMax : ℕ) :
    ((handleImportFiles p files ids now safeMax).failure.isSome = true →
       (handleImportFiles p files ids now safeMax).project = p)
    ∧ ((handleImportFiles p files ids now safeMax).failure = none →
       (handleImportFiles p files ids now safeMax).project.scenes.length
         = p.scenes.length + files.length) := by
  have hlen : ∀ (fs : List (ImageFile × PipelineEnv)) (k : ℕ),
      (importLoop p ids now safeMax k fs).2.2 = none →
      (importLoop p ids now safeMax k fs).1.length = fs.length := by
    intro fs
    induction fs with
    | nil => intro k _; rfl
    | cons fe rest ih =>
        intro k hnone
        obtain ⟨f, env⟩ := fe
        cases hrun : (processEquirectToSafeBlob f safeMax "image/jpeg" (9/10) env).1 with
        | error e =>
            exfalso
            simp [importLoop, hrun] at hnone
        | ok r =>
            have hnone2 : (importLoop p ids now safeMax (k + 1) rest).2.2 = none := by
              simpa [importLoop, hrun] using hnone
            simp [importLoop, hrun, ih (k + 1) hnone2]
  by_cases hempty : files.isEmpty
  · constructor
    · intro _
      simp [handleImportFiles, hempty]
    · intro _
      have : files = [] := List.isEmpty_iff.mp hempty
      simp [handleImportFiles, hempty, this]
  · cases hfail : (importLoop p ids now safeMax 0 files).2.2 with
    | some e =>
        constructor
        · intro _
          simp [handleImportFiles, hempty, hfail]
        · intro hnone
          exfalso
          simp [handleImportFiles, hempty, hfail] at hnone
    | none =>
        constructor
        · intro hsome
          exfalso
          simp [handleImportFiles, hempty, hfail] at hsome
        · intro _
          simp [handleImportFiles, hempty, hfail, touchProject,
            hlen files 0 hfail]

/-- Witness for the amended C1: the failing batch A leaves the project
untouched. -/
theorem import_batch_all_or_nothing_witness :
    (handleImportFiles importCexProject importCexBatchA importCexIds "t1" 8192).project
      = importCexProject :=
  (import_batch_all_or_nothing importCexProject importCexBatchA importCexIds
    "t1" 8192).1 rfl


/-! ## C6: what `safeFileName` does to runs of unsafe characters -/

/-- The claim's reading of the sanitizer (refuted below): replace each
individual character outside the class with one underscore, with no run
collapsing, then trim and fall back. -/
def perCharFileName (name : List Char) : List Char :=
  let t := trimUnderscores (name.map (fun c => if isSafeChar c then c else '_'))
  if t.isEmpty then "file".toList else t

/-- C6 (counterexample): the regex quantifier is `+`, so a run of unsafe
characters becomes ONE underscore: `safeFileName "a!!b" = "a_b"`, not the
per-character `"a__b"`. -/
theorem safeFileName_per_char_cex :
    safeFileName ("a!!b".toList) = "a_b".toList
    ∧ perCharFileName ("a!!b".toList) = "a__b".toList
    ∧ safeFileName ("a!!b".toList) ≠ perCharFileName ("a!!b".toList) := by
  refine ⟨by decide, by decide, by decide⟩

/-- Reference formulation of the regex semantics, following the amended
claim: each maximal run of consecutive unsafe characters is replaced by a
single underscore. -/
def collapseRuns : List Char → List Char
  | [] => []
  | c :: rest =>
      if isSafeChar c then c :: collapseRuns rest
      else '_' :: collapseRuns (rest.dropWhile (fun d => !isSafeChar d))
termination_by l => l.length
decreasing_by
  · simp_wf
  · simp_wf
    have := (List.dropWhile_sublist (p := fun d => !isSafeChar d) (l := rest)).length_le
    omega

theorem collapseUnsafe_eq_runs (l : List Char) :
    collapseUnsafe false l = collapseRuns l
    ∧ collapseUnsafe true l = collapseRuns (l.dropWhile (fun d => !isSafeChar d)) := by
  induction l with
  | nil => constructor <;> simp [collapseUnsafe, collapseRuns]
  | cons c rest ih =>
      by_cases hc : isSafeChar c
      · constructor
        · simp [collapseUnsafe, collapseRuns, hc, ih.1]
        · simp [collapseUnsafe, collapseRuns, List.dropWhile_cons, hc, ih.1]
      · constructor
        · simp [collapseUnsafe, collapseRuns, hc, ih.2]
        · simp [collapseUnsafe, List.dropWhile_cons, hc, ih.2]

theorem mem_collapseUnsafe_safe (l : List Char) :
    ∀ (b : Bool), ∀ c ∈ collapseUnsafe b l, isSafeChar c = true := by
  induction l with
  | nil =>
      intro b c hc
      simp [collapseUnsafe] at hc
  | cons d rest ih =>
      intro b c hc
      by_cases hd : isSafeChar d
      · have hstep : collapseUnsafe b (d :: rest) = d :: collapseUnsafe false rest := by
          simp [collapseUnsafe, hd]
        rw [hstep] at hc
        rcases List.mem_cons.mp hc with h | h
        · rw [h]; exact hd
        · exact ih false c h
      · cases b with
        | false =>
            have hstep : collapseUnsafe false (d :: rest)
                = Char.ofNat 95 :: collapseUnsafe true rest := by
              simp [collapseUnsafe, hd]
            rw [hstep] at hc
            rcases List.mem_cons.mp hc with h | h
            · rw [h]; decide
            · exact ih true c h
        | true =>
            have hstep : collapseUnsafe true (d :: rest) = collapseUnsafe true rest := by
              simp [collapseUnsafe, hd]
            rw [hstep] at hc
            exact ih true c hc

theorem mem_trimUnderscores {l : List Char} {c : Char}
    (h : c ∈ trimUnderscores l) : c ∈ l := by
  unfold trimUnderscores at h
  rw [List.mem_reverse] at h
  have h2 := (List.dropWhile_sublist (p := fun c => c == '_')
    (l := (l.dropWhile (fun c => c == '_')).reverse)).mem h
  rw [List.mem_reverse] at h2
  exact (List.dropWhile_sublist (p := fun c => c == '_') (l := l)).mem h2

/-- C6 (amended): `safeFileName` replaces each MAXIMAL RUN of characters
outside `[A-Za-z0-9._-]` with one underscore, trims leading and trailing
underscores, and returns `"file"` when the result is empty; every
character of the result lies in the safe class. -/
theorem safeFileName_collapses_runs : ∀ name : List Char,
    safeFileName name =
      (if (trimUnderscores (collapseRuns name)).isEmpty then "file".toList
       else trimUnderscores (collapseRuns name))
    ∧ (safeFileName name).all isSafeChar = true := by
  intro name
  have heq : collapseUnsafe false name = collapseRuns name :=
    (collapseUnsafe_eq_runs name).1
  constructor
  · unfold safeFileName
    rw [heq]
  · unfold safeFileName
    by_cases hemp : (trimUnderscores (collapseUnsafe false name)).isEmpty
    · rw [if_pos hemp]
      decide
    · rw [if_neg hemp]
      rw [List.all_eq_true]
      intro c hc
      exact mem_collapseUnsafe_safe name false c (mem_trimUnderscores hc)


/-! ## C7: asset files written by a folder export -/

theorem collapseUnsafe_all_safe : ∀ (l : List Char), l.all isSafeChar = true →
    ∀ (b : Bool), collapseUnsafe b l = l := by
  intro l
  induction l with
  | nil => intro _ b; rfl
  | cons c rest ih =>
      intro hall b
      rw [List.all_cons, Bool.and_eq_true] at hall
      simp [collapseUnsafe, hall.1, ih hall.2 false]

theorem dropWhile_underscore_eq_self {m : List Char} (h : m.head? ≠ some (Char.ofNat 95)) :
    m.dropWhile (fun c => c == Char.ofNat 95) = m := by
  cases m with
  | nil => rfl
  | cons c r =>
      have hc : (c == Char.ofNat 95) = false := by
        have : c ≠ Char.ofNat 95 := by simpa using h
        simpa using this
      simp [List.dropWhile_cons, hc]

theorem trimUnderscores_eq_self {l : List Char}
    (hhead : l.head? ≠ some (Char.ofNat 95))
    (hlast : l.getLast? ≠ some (Char.ofNat 95)) : trimUnderscores l = l := by
  unfold trimUnderscores
  rw [dropWhile_underscore_eq_self hhead]
  rw [dropWhile_underscore_eq_self (by rwa [List.head?_reverse])]
  rw [List.reverse_reverse]

/-- `uid`-style clean ids are fixed points of the sanitizer once `.jpg`
is appended. -/
theorem safeFileName_clean (id : List Char) (hall : id.all isSafeChar = true)
    (hhead : id.head? ≠ some (Char.ofNat 95)) :
    safeFileName (id ++ ".jpg".toList) = id ++ ".jpg".toList := by
  have hall2 : (id ++ ".jpg".toList).all isSafeChar = true := by
    rw [List.all_append, hall]
    decide
  have hhead2 : (id ++ ".jpg".toList).head? ≠ some (Char.ofNat 95) := by
    cases id with
    | nil => decide
    | cons c r =>
        simp only [List.cons_append, List.head?_cons]
        simp only [List.head?_cons] at hhead
        exact hhead
  have hlast2 : (id ++ ".jpg".toList).getLast? ≠ some (Char.ofNat 95) := by
    rw [← List.head?_reverse, List.reverse_append]
    rw [show (".jpg".toList).reverse
        = Char.ofNat 103 :: Char.ofNat 112 :: Char.ofNat 106 :: Char.ofNat 46 :: [] from rfl]
    simp only [List.cons_append, List.head?_cons]
    decide
  have hne : id ++ ".jpg".toList ≠ [] := by
    simp
  unfold safeFileName
  rw [collapseUnsafe_all_safe _ hall2 false, trimUnderscores_eq_self hhead2 hlast2,
    if_neg (by simp [List.isEmpty_iff])]

theorem collect_fileNames (assets : String → Option StoredAsset) :
    ∀ scenes : List Scene,
      (scenes.filterMap (fun scene =>
        match assets scene.id with
        | none => none
        | some stored =>
            some ({ sceneId := scene.id, blob := stored.blob,
                    fileName := safeFileName (scene.id.toList ++ ".jpg".toList) }
              : ExportAsset))).map (fun a => a.fileName)
        = (scenes.filter (fun s => (assets s.id).isSome)).map
            (fun s => safeFileName (s.id.toList ++ ".jpg".toList)) := by
  intro scenes
  induction scenes with
  | nil => rfl
  | cons s rest ih =>
      cases h : assets s.id
      · simp [h]
        simpa using ih
      · simp [h]
        simpa using ih

theorem append_jpg_injective :
    Function.Injective (fun id : String => id.toList ++ ".jpg".toList) := by
  intro a b h
  simp only at h
  have hl := List.append_cancel_right h
  cases a with
  | mk da =>
    cases b with
    | mk db =>
      have hdata : da = db := by simpa [String.toList] using hl
      rw [hdata]

/-- C7 (amended): when the scene ids are pairwise distinct and every
asset-bearing scene id consists of safe characters and does not start
with an underscore (as every `uid('scene')`-minted id does), a folder
export issues exactly M asset writes with pairwise-distinct sanitized
names — so exactly M files exist afterwards — and the serialized project
data has exactly one entry per scene with no duplicate ids. -/
theorem export_counts (p : Project) (assets : String → Option StoredAsset)
    (hids : (p.scenes.map Scene.id).Nodup)
    (hclean : ∀ s ∈ p.scenes, (assets s.id).isSome = true →
      (s.id.toList.all isSafeChar = true
        ∧ s.id.toList.head? ≠ some (Char.ofNat 95))) :
    (assetsDirWrites p assets).length
      = (p.scenes.filter (fun s => (assets s.id).isSome)).length
    ∧ (assetsDirFiles p assets).length
      = (p.scenes.filter (fun s => (assets s.id).isSome)).length
    ∧ (projectToJson p).getField "scenes" = .arr (p.scenes.map sceneToJson)
    ∧ (p.scenes.map sceneToJson).length = p.scenes.length
    ∧ (p.scenes.map Scene.id).Nodup := by
  have hnames : (assetsDirWrites p assets).map Prod.fst
      = (p.scenes.filter (fun s => (assets s.id).isSome)).map
          (fun s => safeFileName (s.id.toList ++ ".jpg".toList)) := by
    unfold assetsDirWrites collectAssetsForExport
    rw [List.map_map]
    exact collect_fileNames assets p.scenes
  have hnames2 : (assetsDirWrites p assets).map Prod.fst
      = (p.scenes.filter (fun s => (assets s.id).isSome)).map
          (fun s => s.id.toList ++ ".jpg".toList) := by
    rw [hnames]
    apply List.map_congr_left
    intro s hs
    rw [List.mem_filter] at hs
    obtain ⟨hcl1, hcl2⟩ := hclean s hs.1 hs.2
    exact safeFileName_clean s.id.toList hcl1 hcl2
  have hlen : (assetsDirWrites p assets).length
      = (p.scenes.filter (fun s => (assets s.id).isSome)).length := by
    have := congrArg List.length hnames2
    simpa using this
  have hnodup : ((assetsDirWrites p assets).map Prod.fst).Nodup := by
    rw [hnames2]
    have hidsub : ((p.scenes.filter (fun s => (assets s.id).isSome)).map Scene.id).Nodup :=
      List.Nodup.sublist (List.Sublist.map Scene.id (List.filter_sublist _)) hids
    have : (p.scenes.filter (fun s => (assets s.id).isSome)).map
          (fun s => s.id.toList ++ ".jpg".toList)
        = ((p.scenes.filter (fun s => (assets s.id).isSome)).map Scene.id).map
            (fun id => id.toList ++ ".jpg".toList) := by
      rw [List.map_map]
      rfl
    rw [this]
    exact List.Nodup.map append_jpg_injective hidsub
  refine ⟨hlen, ?_, rfl, by simp, hids⟩
  unfold assetsDirFiles
  rw [List.dedup_eq_self.mpr hnodup, List.length_map]
  exact hlen


/-- Two scenes with distinct ids that sanitize to the same asset name. -/
def exportCexProject : Project :=
  { version := 1, createdAt := "c", updatedAt := "u", title := "T",
    scenes :=
      [{ id := "a!b", name := "A", panorama := ⟨none, none, none, none⟩,
         initialView := ⟨0, 0, 1⟩, hotspots := [] },
       { id := "a?b", name := "B", panorama := ⟨none, none, none, none⟩,
         initialView := ⟨0, 0, 1⟩, hotspots := [] }] }

/-- Both scenes of `exportCexProject` carry a stored asset. -/
def exportCexAssets : String → Option StoredAsset := fun sid =>
  if sid == "a!b" then
    some { sceneId := "a!b", fileName := "one.jpg", blob := .original [1],
           width := 10, height := 5, originalWidth := 10, originalHeight := 5,
           updatedAt := "t" }
  else if sid == "a?b" then
    some { sceneId := "a?b", fileName := "two.jpg", blob := .original [2],
           width := 10, height := 5, originalWidth := 10, originalHeight := 5,
           updatedAt := "t" }
  else none

/-- C7 (counterexample): two scenes with distinct ids (`"a!b"`, `"a?b"`)
both carrying an asset (M = 2) sanitize to the same name `a_b.jpg`; the
second write overwrites the first and the export's `assets/` folder
contains 1 file, not M = 2. -/
theorem export_asset_collision_cex :
    (exportCexProject.scenes.map Scene.id).Nodup
    ∧ (exportCexProject.scenes.filter
        (fun s => (exportCexAssets s.id).isSome)).length = 2
    ∧ (assetsDirWrites exportCexProject exportCexAssets).length = 2
    ∧ (assetsDirFiles exportCexProject exportCexAssets).length = 1
    ∧ (assetsDirFiles exportCexProject exportCexAssets).length ≠ 2 :=
  ⟨by decide, by decide, by decide, by decide, by decide⟩

/-- A project shaped like real imports: clean `uid`-style ids, one
stored asset out of two scenes. -/
def exportWitProject : Project :=
  { version := 1, createdAt := "c", updatedAt := "u", title := "T",
    scenes :=
      [{ id := "scene_1", name := "A", panorama := ⟨none, none, none, none⟩,
         initialView := ⟨0, 0, 1⟩, hotspots := [] },
       { id := "scene_2", name := "B", panorama := ⟨none, none, none, none⟩,
         initialView := ⟨0, 0, 1⟩, hotspots := [] }] }

/-- Only the first scene of `exportWitProject` has a stored asset. -/
def exportWitAssets : String → Option StoredAsset := fun sid =>
  if sid == "scene_1" then
    some { sceneId := "scene_1", fileName := "one.jpg", blob := .original [1],
           width := 10, height := 5, originalWidth := 10, originalHeight := 5,
           updatedAt := "t" }
  else none

/-- Witness for the amended C7: N = 2 scenes, M = 1 asset, one file. -/
theorem export_counts_witness :
    (assetsDirWrites exportWitProject exportWitAssets).length = 1
    ∧ (assetsDirFiles exportWitProject exportWitAssets).length = 1 := by
  have h := export_counts exportWitProject exportWitAssets (by decide) (by decide)
  exact ⟨h.1.trans (by decide), h.2.1.trans (by decide)⟩


end Orbitry
